import Mathlib

/-!
Verification development for `nanochat/metrics_report.py`, the GPU-telemetry
HTML-report generator.  The Python source is shallowly embedded: strings are
`String`/`List Char`, Python floats are modelled as `ℚ` (the inputs at issue
are exact decimals; `inf`/`nan` and PEP-515 underscores are outside the
model), pandas library calls (`to_datetime`, `to_numeric`) are abstracted as
explicit parser parameters, and fallible code returns `Except`/`Option`.
-/

namespace MetricsReport

/-- ASCII whitespace as stripped by Python `str.strip()` (the files at issue
are ASCII; non-ASCII Unicode whitespace is outside the model). -/
def isPySpace (c : Char) : Bool :=
  c == ' ' || c == '\t' || c == '\n' || c == '\r' || c == '\x0b' || c == '\x0c'

/-- ASCII decimal digit test (`\d` of the source's regexes, ASCII fragment). -/
def isDig (c : Char) : Bool :=
  48 ≤ c.toNat && c.toNat ≤ 57

/-- Numeric value of a digit character. -/
def digitVal (c : Char) : Nat :=
  c.toNat - 48

/-- Digit character of a value `< 10` (values `≥ 9` clamp; never used so). -/
def digitChar (d : Nat) : Char :=
  match d with
  | 0 => '0' | 1 => '1' | 2 => '2' | 3 => '3' | 4 => '4'
  | 5 => '5' | 6 => '6' | 7 => '7' | 8 => '8' | _ => '9'

/-- Value of a digit string, most significant first. -/
def digitsToNat (l : List Char) : Nat :=
  l.foldl (fun a c => 10 * a + digitVal c) 0

/-- Python `str.strip()` on a character list. -/
def stripChars (l : List Char) : List Char :=
  ((l.dropWhile isPySpace).reverse.dropWhile isPySpace).reverse

/-- Python `str.strip()`. -/
def pyStrip (s : String) : String :=
  String.mk (stripChars s.data)

/-- Python `str.lower()` on the ASCII fragment. -/
def asciiLower (c : Char) : Char :=
  if 65 ≤ c.toNat && c.toNat ≤ 90 then Char.ofNat (c.toNat + 32) else c

/-- Python `str.lower()` (ASCII fragment). -/
def pyLower (s : String) : String :=
  String.mk (s.data.map asciiLower)

/-- Substring containment, Python's `needle in haystack`. -/
def containsSub (hay needle : List Char) : Bool :=
  match hay with
  | [] => needle.isEmpty
  | _ :: rest => needle.isPrefixOf hay || containsSub rest needle

/-- Last index at which character `c` occurs in `l`. -/
def lastIdxOf (c : Char) (l : List Char) : Option Nat :=
  ((List.range l.length).filter (fun i => l.getD i ' ' == c)).getLast?

/-- The final `n` characters of a string (used to take the timestamp suffix
of an identity key). -/
def strTakeRight (s : String) (n : Nat) : String :=
  String.mk (s.data.drop (s.data.length - n))

/-- Python `str.splitlines()` restricted to `\n`, `\r\n` and `\r` separators
(no trailing empty line). -/
def splitLinesAux (cur : List Char) : List Char → List (List Char)
  | [] => if cur.isEmpty then [] else [cur.reverse]
  | '\n' :: rest => cur.reverse :: splitLinesAux [] rest
  | '\r' :: '\n' :: rest => cur.reverse :: splitLinesAux [] rest
  | '\r' :: rest => cur.reverse :: splitLinesAux [] rest
  | c :: rest => splitLinesAux (c :: cur) rest

/-- Python `str.splitlines()` (common separators). -/
def splitLines (s : String) : List String :=
  (splitLinesAux [] s.data).map String.mk

/-! ## Numeric coercion: `_to_float_unit` (metrics_report.py lines 57-72)

Python floats are modelled as exact rationals.  `float(s)` is modelled on
its decimal fragment `[+-]? (digits [. digits*]? | . digits+) ([eE][+-]?digits+)?`;
`inf`/`nan` literals and underscores in numerals are outside the model. -/

/-- The rational `n / 10 ^ k` (built with `mkRat` so that closed instances
reduce). -/
def decScaled (n : Nat) (k : Nat) : ℚ := mkRat (Int.ofNat n) (10 ^ k)

/-- The rational value of a natural number. -/
def natQ (n : Nat) : ℚ := mkRat (Int.ofNat n) 1

/-- Fractional value of a digit string `ds` read after a decimal point. -/
def fracVal (ds : List Char) : ℚ :=
  decScaled (digitsToNat ds) ds.length

/-- Parse the exponent tail `([eE][+-]?digits+)?` against mantissa `q`;
the whole remainder must be consumed. -/
def pyFloatExp (q : ℚ) : List Char → Option ℚ
  | [] => some q
  | e :: rest =>
    if e == 'e' || e == 'E' then
      let (sgn, rest2) :=
        match rest with
        | '+' :: r => (false, r)
        | '-' :: r => (true, r)
        | r => (false, r)
      let ds := rest2.takeWhile isDig
      if ds.isEmpty || !(rest2.drop ds.length).isEmpty then none
      else some (if sgn then Rat.div q (natQ (10 ^ digitsToNat ds))
                 else Rat.mul q (natQ (10 ^ digitsToNat ds)))
    else none

/-- Parse an unsigned float body `digits [. digits*]? | . digits+` plus
optional exponent, consuming the entire list. -/
def pyFloatBody (l : List Char) : Option ℚ :=
  let ip := l.takeWhile isDig
  let r1 := l.drop ip.length
  if ip.isEmpty then
    match r1 with
    | '.' :: r2 =>
      let fp := r2.takeWhile isDig
      if fp.isEmpty then none
      else pyFloatExp (fracVal fp) (r2.drop fp.length)
    | _ => none
  else
    match r1 with
    | '.' :: r2 =>
      let fp := r2.takeWhile isDig
      pyFloatExp (Rat.add (natQ (digitsToNat ip)) (fracVal fp)) (r2.drop fp.length)
    | _ => pyFloatExp (natQ (digitsToNat ip)) r1

/-- Model of Python `float(s)` on an already-stripped string (decimal
fragment; returns `none` where `float` raises `ValueError`). -/
def pyFloat? (s : String) : Option ℚ :=
  match s.data with
  | '+' :: rest => pyFloatBody rest
  | '-' :: rest => (pyFloatBody rest).map Rat.neg
  | l => pyFloatBody l

/-- Value of a matched token: digit run, optionally `.` plus a nonempty digit
run (the regex group `(\.\d+)?`). -/
def tokenVal (l : List Char) : ℚ :=
  let ds := l.takeWhile isDig
  match l.drop ds.length with
  | '.' :: r2 =>
    let fs := r2.takeWhile isDig
    if fs.isEmpty then natQ (digitsToNat ds)
    else Rat.add (natQ (digitsToNat ds)) (fracVal fs)
  | _ => natQ (digitsToNat ds)

/-- Whether a list starts with an ASCII digit. -/
def headIsDig : List Char → Bool
  | [] => false
  | d :: _ => isDig d

/-- Leftmost match of `re.search(r"[-+]?\d+(\.\d+)?", s)`: scan positions
left to right; at the first position where an optional sign is followed by a
digit, take the greedy match. -/
def scanFloatToken : List Char → Option ℚ
  | [] => none
  | c :: rest =>
    if isDig c then some (tokenVal (c :: rest))
    else if (c == '+' || c == '-') && headIsDig rest then
      some (if c == '-' then Rat.neg (tokenVal rest) else tokenVal rest)
    else scanFloatToken rest

/-- `re.search(r"[-+]?\d+(\.\d+)?", s)` converted by `float` (lines 71-72). -/
def firstFloatToken (s : String) : Option ℚ :=
  scanFloatToken s.data

/-- Python `s[:-len(u)]` for nonempty `u`. -/
def dropSuffixStr (s u : String) : String :=
  String.mk (s.data.take (s.data.length - u.data.length))

/-- Python `s.endswith(u)`. -/
def pyEndsWith (s u : String) : Bool :=
  u.data.isSuffixOf s.data

/-- Lines 63-66 of the source, applied to the already-stripped value `s`:
strip a known unit suffix if present, then strip whitespace again. -/
def stripUnitAux (s u : String) : String :=
  pyStrip (if !u.data.isEmpty && pyEndsWith s u then pyStrip (dropSuffixStr s u) else s)

/-- The string actually handed to `float()` by `_to_float_unit(v, u)`. -/
def stripUnit (v u : String) : String :=
  stripUnitAux (pyStrip v) u

/-- `_to_float_unit` (lines 57-72).  `none` input models `value is None`
(pandas missing cell); the result `none` is the missing value. -/
def toFloatUnit (value : Option String) (unitSuffix : String) : Option ℚ :=
  match value with
  | none => none
  | some v =>
    let s := pyStrip v
    if s.data.isEmpty || pyLower s == "n/a" then none
    else
      let s2 := stripUnitAux s unitSuffix
      match pyFloat? s2 with
      | some x => some x
      | none => firstFloatToken s2

/-! ## Filename discovery (metrics_report.py lines 13, 20-54)

`datetime.strptime(ts, "%Y%m%d_%H%M%S")` is modelled on its use site: the
argument always has shape `\d{8}_\d{6}` (forced by `_GPU_CSV_RE`), where the
CPython `_strptime` regex pins each field to fixed width, so the model reads
fixed-width fields and then applies `datetime`'s range validation.
`strftime` is modelled zero-padded in every field. -/

/-- A parsed `datetime` (second precision, as used by the source). -/
structure PyDateTime where
  year : Nat
  month : Nat
  day : Nat
  hour : Nat
  minute : Nat
  second : Nat
  deriving DecidableEq

/-- Gregorian leap-year rule (Python `datetime`). -/
def isLeap (y : Nat) : Bool :=
  y % 4 == 0 && (y % 100 != 0 || y % 400 == 0)

/-- Days in a month (Python `datetime`). -/
def daysInMonth (y m : Nat) : Nat :=
  if m == 2 then (if isLeap y then 29 else 28)
  else if m == 4 || m == 6 || m == 9 || m == 11 then 30
  else 31

/-- The range checks `datetime.__new__` performs (`MINYEAR = 1`,
`MAXYEAR = 9999`). -/
def validDT (t : PyDateTime) : Bool :=
  1 ≤ t.year && t.year ≤ 9999 && 1 ≤ t.month && t.month ≤ 12 &&
  1 ≤ t.day && t.day ≤ daysInMonth t.year t.month &&
  t.hour ≤ 23 && t.minute ≤ 59 && t.second ≤ 59

/-- `datetime.strptime(s, "%Y%m%d_%H%M%S")`, returning `none` where Python
raises `ValueError` (shape mismatch or out-of-range component). -/
def strptimeYmdHMS (s : String) : Option PyDateTime :=
  match s.data with
  | [y1, y2, y3, y4, m1, m2, d1, d2, u, h1, h2, i1, i2, s1, s2] =>
    if isDig y1 && isDig y2 && isDig y3 && isDig y4 && isDig m1 && isDig m2 &&
       isDig d1 && isDig d2 && u == '_' && isDig h1 && isDig h2 &&
       isDig i1 && isDig i2 && isDig s1 && isDig s2 then
      if validDT ⟨digitsToNat [y1, y2, y3, y4], digitsToNat [m1, m2],
                  digitsToNat [d1, d2], digitsToNat [h1, h2],
                  digitsToNat [i1, i2], digitsToNat [s1, s2]⟩ then
        some ⟨digitsToNat [y1, y2, y3, y4], digitsToNat [m1, m2],
              digitsToNat [d1, d2], digitsToNat [h1, h2],
              digitsToNat [i1, i2], digitsToNat [s1, s2]⟩
      else none
    else none
  | _ => none

/-- Zero-padded 2-digit rendering. -/
def pad2 (n : Nat) : List Char :=
  [digitChar (n / 10 % 10), digitChar (n % 10)]

/-- Zero-padded 4-digit rendering. -/
def pad4 (n : Nat) : List Char :=
  [digitChar (n / 1000 % 10), digitChar (n / 100 % 10),
   digitChar (n / 10 % 10), digitChar (n % 10)]

/-- `timestamp.strftime("%Y%m%d_%H%M%S")` (zero-padded fields). -/
def strftimeYmdHMS (t : PyDateTime) : String :=
  String.mk (pad4 t.year ++ pad2 t.month ++ pad2 t.day ++ ['_'] ++
             pad2 t.hour ++ pad2 t.minute ++ pad2 t.second)

/-- `MetricsFile.key` (lines 26-29): `f"{phase}__{ts.strftime('%Y%m%d_%H%M%S')}"`. -/
def mfileKey (phase : String) (t : PyDateTime) : String :=
  phase ++ "__" ++ strftimeYmdHMS t

/-- Shape test for the regex fragment `\d{8}_\d{6}` (exactly 15 chars). -/
def isTsShape (l : List Char) : Bool :=
  l.length == 15 && (l.take 8).all isDig && l.getD 8 ' ' == '_' &&
  (l.drop 9).all isDig

/-- `_GPU_CSV_RE.match(name)` for `^gpu_(?P<phase>.+)_(?P<ts>\d{8}_\d{6})\.csv$`:
the tail after the greedy nonempty `phase` group has fixed width 20
(`_` + 15-char timestamp + `.csv`), so the decomposition is forced.  `.` does
not cross a newline, hence the no-newline check on the phase. -/
def gpuCsvMatch (name : String) : Option (String × String) :=
  let l := name.data
  let n := l.length
  if decide (25 ≤ n) && l.take 4 == ['g', 'p', 'u', '_'] &&
     l.drop (n - 4) == ['.', 'c', 's', 'v'] && l.getD (n - 20) ' ' == '_' &&
     isTsShape ((l.drop (n - 19)).take 15) &&
     ((l.drop 4).take (n - 24)).all (fun c => c != '\n') then
    some (String.mk ((l.drop 4).take (n - 24)), String.mk ((l.drop (n - 19)).take 15))
  else none

/-- `fnmatch` test for the glob pattern `gpu_*.csv`. -/
def globGpuCsv (name : String) : Bool :=
  ['g', 'p', 'u', '_'].isPrefixOf name.data && ['.', 'c', 's', 'v'].isSuffixOf name.data

/-- Code-point comparison of strings, as Python compares the globbed paths
inside `sorted(...)`. -/
def strLeB (a b : String) : Bool :=
  go a.data b.data
where
  go : List Char → List Char → Bool
    | [], _ => true
    | _ :: _, [] => false
    | x :: xs, y :: ys =>
      if x.toNat < y.toNat then true
      else if y.toNat < x.toNat then false
      else go xs ys

/-- Insertion into a sorted list (stable). -/
def insertSorted (a : String) : List String → List String
  | [] => [a]
  | b :: rest => if strLeB a b then a :: b :: rest else b :: insertSorted a rest

/-- Python `sorted` on filenames (insertion sort; stable, same multiset and
order as Timsort under a total preorder). -/
def sortStrings : List String → List String
  | [] => []
  | a :: rest => insertSorted a (sortStrings rest)

/-- A discovered `MetricsFile` (lines 20-33); `csvPath` is the file name. -/
structure MFile where
  csvPath : String
  phase : String
  timestamp : PyDateTime
  deriving DecidableEq

/-- Errors surfaced by the pipeline (Python exception types noted). -/
inductive ReportError where
  /-- `ValueError` from `datetime.strptime` during discovery. -/
  | badTimestamp (ts : String)
  /-- `KeyError(f"Missing expected column starting with {prefix!r} in {csv_path}")`. -/
  | missingColumn (pre : String) (path : String)
  /-- `FileNotFoundError(f"No gpu_*.csv files found under {metrics_dir}")`. -/
  | noFiles (dir : String)
  deriving DecidableEq

/-- The loop body of `discover_metrics_files` (lines 46-54) over the sorted
glob results; a `strptime` failure raises out of the loop. -/
def discoverLoop : List String → Except ReportError (List MFile)
  | [] => Except.ok []
  | name :: rest =>
    match gpuCsvMatch name with
    | none => discoverLoop rest
    | some (phase, ts) =>
      match strptimeYmdHMS ts with
      | none => Except.error (ReportError.badTimestamp ts)
      | some t =>
        match discoverLoop rest with
        | Except.error e => Except.error e
        | Except.ok out => Except.ok (⟨name, phase, t⟩ :: out)

/-- `discover_metrics_files` (lines 41-54): `none` models a nonexistent
directory (returns `[]`), `some names` models the directory listing. -/
def discoverMetricsFiles (dirEntries : Option (List String)) :
    Except ReportError (List MFile) :=
  match dirEntries with
  | none => Except.ok []
  | some names => discoverLoop (sortStrings (names.filter globGpuCsv))

/-! ## Metadata parsing: `parse_meta_file` (metrics_report.py lines 137-160) -/

/-- One entry of the GPU-identity list. -/
structure GpuEntry where
  index : String
  name : String
  uuid : String
  deriving DecidableEq

/-- The parsed metadata record: the flat `key = value` dictionary plus the
GPU-identity list the source stores under the reserved dictionary key
`"gpus"` (modelled as a separate field because the Python dict is
heterogeneous). -/
structure MetaRecord where
  kvs : List (String × String)
  gpus : Option (List GpuEntry)
  deriving DecidableEq

/-- Python `dict` insertion: overwrite in place when the key exists,
append otherwise. -/
def dictInsert (m : List (String × String)) (k v : String) :
    List (String × String) :=
  if m.any (fun p => p.1 == k) then
    m.map (fun p => if p.1 == k then (k, v) else p)
  else m ++ [(k, v)]

/-- Python `dict` lookup. -/
def dictLookup (m : List (String × String)) (k : String) : Option String :=
  (m.find? (fun p => p.1 == k)).map (fun p => p.2)

/-- Lines 147-149: a line containing `=` and not starting with `[` yields the
trimmed key/value around the first `=`. -/
def kvOfLine? (line : String) : Option (String × String) :=
  let l := line.data
  if l.contains '=' && !(l.head? == some '[') then
    some (pyStrip (String.mk (l.takeWhile (fun c => c != '='))),
          pyStrip (String.mk ((l.dropWhile (fun c => c != '=')).drop 1)))
  else none

/-- Matches `\s+(.+)\)` with no end anchor (the part after `(UUID:`): a
greedy whitespace run, then `.+` greedy backtracking to the last `)` with at
least one character before it.  The engine tries whitespace-run lengths from
the maximal run `w` downward and, for each, lets `.+` reach the last `)` at
index `j`; the first success therefore uses run length `min w (j - 1)`, so
the captured group may start inside the whitespace run (for example
`(UUID:  )` matches with uuid `" "`).  Inputs are single lines (no
newline), so `.` is unrestricted here. -/
def matchUuidPart (u : List Char) : Option (List Char) :=
  let w := (u.takeWhile isPySpace).length
  match lastIdxOf ')' u with
  | some j =>
    if 1 ≤ min w (j - 1) then some ((u.drop (min w (j - 1))).take (j - min w (j - 1)))
    else none
  | none => none

/-- Matches `\s+\(UUID:\s+(.+)\)` (the part after the lazy name group).
The whitespace run before `(` is deterministic because a shorter run would
end on a whitespace character, not `(`. -/
def tailMatch (t2 : List Char) : Option (List Char) :=
  let w2 := (t2.takeWhile isPySpace).length
  if w2 == 0 then none
  else
    let t3 := t2.drop w2
    if t3.take 6 == ['(', 'U', 'U', 'I', 'D', ':'] then matchUuidPart (t3.drop 6)
    else none

/-- The lazy name group `(.+?)`: try name lengths from `n` upward, shortest
first, until the tail matches (`fuel` bounds the search; it is called with
`fuel = t.length`, enough to reach every candidate length). -/
def nameLoopF : Nat → List Char → Nat → Option (List Char × List Char)
  | 0, _, _ => none
  | fuel + 1, t, n =>
    if n < t.length then
      match tailMatch (t.drop n) with
      | some uu => some (t.take n, uu)
      | none => nameLoopF fuel t (n + 1)
    else none

/-- The lazy name group `(.+?)`, name lengths tried from `n` upward. -/
def nameLoop (t : List Char) (n : Nat) : Option (List Char × List Char) :=
  nameLoopF t.length t n

/-- The greedy `\s+` after `:`: try whitespace-run lengths from `w` downward
(the regex engine shortens a greedy quantifier on failure of the rest). -/
def wsLoop (r : List Char) : Nat → Option (List Char × List Char)
  | 0 => none
  | w + 1 =>
    match nameLoop (r.drop (w + 1)) 1 with
    | some p => some p
    | none => wsLoop r w

/-- Matches `\s+(?P<name>.+?)\s+\(UUID:\s+(?P<uuid>.+)\)` against the text
after `GPU <idx>:`, with the regex engine's backtracking order. -/
def matchAfterColon (r : List Char) : Option (List Char × List Char) :=
  wsLoop r (r.takeWhile isPySpace).length

/-- Lines 153-157: pre-checks plus
`re.match(r"GPU\s+(?P<idx>\d+):\s+(?P<name>.+?)\s+\(UUID:\s+(?P<uuid>.+)\)", line)`.
The whitespace and digit runs before `:` are deterministic because `\s`,
`\d` and the following literal are pairwise disjoint. -/
def parseGpuLine (line : String) : Option GpuEntry :=
  let l := line.data
  if ['G', 'P', 'U', ' '].isPrefixOf l && l.contains ':' &&
     containsSub l ['(', 'U', 'U', 'I', 'D', ':'] then
    let r0 := l.drop 3
    let w := (r0.takeWhile isPySpace).length
    if w == 0 then none
    else
      let r1 := r0.drop w
      let ds := r1.takeWhile isDig
      if ds.isEmpty then none
      else
        match r1.drop ds.length with
        | ':' :: r3 =>
          match matchAfterColon r3 with
          | some (nm, uu) => some ⟨String.mk ds, String.mk nm, String.mk uu⟩
          | none => none
        | _ => none
  else none

/-- The `key = value` accumulation step of the first loop (lines 146-149). -/
def kvStep (m : List (String × String)) (line : String) :
    List (String × String) :=
  match kvOfLine? line with
  | some (k, v) => dictInsert m k v
  | none => m

/-- `parse_meta_file` (lines 137-160); `none` content models a missing file. -/
def parseMetaFile (content : Option String) : MetaRecord :=
  match content with
  | none => ⟨[], none⟩
  | some text =>
    let ls := splitLines text
    let kvs := ls.foldl kvStep []
    let gpus := ls.filterMap parseGpuLine
    ⟨kvs, if gpus.isEmpty then none else some gpus⟩

/-! ## CSV normalization: `load_metrics_dataframe` (metrics_report.py 83-134)

The CSV is given as a header list plus rows of cells (`r.get? i = none`
models a missing/NaN cell).  The pandas calls `pd.to_datetime(_,
errors="coerce")` and `pd.to_numeric(_, errors="coerce").astype("Int64")
... .astype(int)` are abstracted as parser parameters `parseTs`/`parseIdx`
(`none` = `NaT`/`NA`, dropped by `dropna`).  The staging mirrors the source:
parse every column of every row, then drop rows whose `ts` or `gpu_index`
is missing. -/

/-- One normalized row (the DataFrame row after `dropna`/`astype(int)`).
`τ` is the timestamp type produced by the abstracted `pd.to_datetime`. -/
structure Sample (τ : Type) where
  ts : τ
  gpuIndex : Int
  gpuUtilPct : Option ℚ
  memUtilPct : Option ℚ
  powerW : Option ℚ
  smClockMhz : Option ℚ
  memClockMhz : Option ℚ
  tempC : Option ℚ
  memUsedMib : Option ℚ
  memTotalMib : Option ℚ
  deriving DecidableEq

/-- A row with every parsed column still optional (the DataFrame before
`dropna(subset=["ts", "gpu_index"])`). -/
structure WideRow (τ : Type) where
  ts : Option τ
  gpuIndex : Option Int
  gpuUtilPct : Option ℚ
  memUtilPct : Option ℚ
  powerW : Option ℚ
  smClockMhz : Option ℚ
  memClockMhz : Option ℚ
  tempC : Option ℚ
  memUsedMib : Option ℚ
  memTotalMib : Option ℚ

/-- Python `c.startswith(pre)` (character-list prefix test). -/
def strStartsWith (c pre : String) : Bool :=
  pre.data.isPrefixOf c.data

/-- `find_col` (lines 100-104) composed with pandas column selection:
position of the first column whose (stripped) name starts with `pre`. -/
def findColIdx (pre : String) : List String → Option Nat
  | [] => none
  | c :: rest =>
    if strStartsWith c pre then some 0
    else (findColIdx pre rest).map (fun i => i + 1)

/-- `find_col` with its `KeyError` (the message carries the prefix and the
CSV path, modelled structurally). -/
def findColE (path : String) (cols : List String) (pre : String) :
    Except ReportError Nat :=
  match findColIdx pre cols with
  | some i => Except.ok i
  | none => Except.error (ReportError.missingColumn pre path)

/-- The ten required semantic column prefixes, in the source's resolution
order (lines 106-115). -/
def requiredPrefixes : List String :=
  ["timestamp", "index", "utilization.gpu", "utilization.memory",
   "power.draw", "clocks.current.sm", "clocks.current.memory",
   "temperature.gpu", "memory.used", "memory.total"]

/-- The first required prefix with no matching column (used to name the
prefix in the `KeyError`). -/
def firstMissingPrefix (cols : List String) : String :=
  ((requiredPrefixes.find? (fun p => (findColIdx p cols).isNone)).getD "")

/-- The wide (pre-`dropna`) parse of one CSV row given the ten resolved
column positions (lines 118-128). -/
def wideOfRow {τ : Type} (parseTs : Option String → Option τ)
    (parseIdx : Option String → Option Int)
    (iTs iIdx iGu iMu iPw iSc iMc iTc iMU iMT : Nat) (r : List String) :
    WideRow τ :=
  { ts := parseTs (r.get? iTs)
    gpuIndex := parseIdx (r.get? iIdx)
    gpuUtilPct := toFloatUnit (r.get? iGu) "%"
    memUtilPct := toFloatUnit (r.get? iMu) "%"
    powerW := toFloatUnit (r.get? iPw) "W"
    smClockMhz := toFloatUnit (r.get? iSc) "MHz"
    memClockMhz := toFloatUnit (r.get? iMc) "MHz"
    tempC := toFloatUnit (r.get? iTc) ""
    memUsedMib := toFloatUnit (r.get? iMU) "MiB"
    memTotalMib := toFloatUnit (r.get? iMT) "MiB" }

/-- `dropna(subset=["ts", "gpu_index"])` + `astype(int)` extraction of a
kept wide row. -/
def narrowRow {τ : Type} (w : WideRow τ) : Option (Sample τ) :=
  match w.ts, w.gpuIndex with
  | some t, some g =>
    some ⟨t, g, w.gpuUtilPct, w.memUtilPct, w.powerW, w.smClockMhz,
          w.memClockMhz, w.tempC, w.memUsedMib, w.memTotalMib⟩
  | _, _ => none

/-- One-step row normalization (used to state theorems about the result of
`loadMetricsRows`): the sample kept for a row, or `none` when its timestamp
or GPU index does not parse. -/
def mkSample {τ : Type} (parseTs : Option String → Option τ)
    (parseIdx : Option String → Option Int)
    (iTs iIdx iGu iMu iPw iSc iMc iTc iMU iMT : Nat) (r : List String) :
    Option (Sample τ) :=
  narrowRow (wideOfRow parseTs parseIdx iTs iIdx iGu iMu iPw iSc iMc iTc iMU iMT r)

/-- `load_metrics_dataframe` (lines 83-134): normalize headers, resolve the
ten required columns (first match per prefix, `KeyError` when absent), parse
all columns, then drop the rows whose timestamp or GPU index is missing. -/
def loadMetricsRows {τ : Type} (parseTs : Option String → Option τ)
    (parseIdx : Option String → Option Int) (csvPath : String)
    (headers : List String) (rows : List (List String)) :
    Except ReportError (List (Sample τ)) := do
  let cols := headers.map pyStrip
  let iTs ← findColE csvPath cols "timestamp"
  let iIdx ← findColE csvPath cols "index"
  let iGu ← findColE csvPath cols "utilization.gpu"
  let iMu ← findColE csvPath cols "utilization.memory"
  let iPw ← findColE csvPath cols "power.draw"
  let iSc ← findColE csvPath cols "clocks.current.sm"
  let iMc ← findColE csvPath cols "clocks.current.memory"
  let iTc ← findColE csvPath cols "temperature.gpu"
  let iMU ← findColE csvPath cols "memory.used"
  let iMT ← findColE csvPath cols "memory.total"
  let wide := rows.map (wideOfRow parseTs parseIdx iTs iIdx iGu iMu iPw iSc iMc iTc iMU iMT)
  let kept := wide.filter (fun w => w.ts.isSome && w.gpuIndex.isSome)
  pure (kept.filterMap narrowRow)

/-- Model of `pd.to_datetime(_, errors="coerce")` restricted to compact
digit timestamps (e.g. `"20240102"`), which pandas parses as dates;
order-isomorphic to the real timestamps on equal-width digit strings.  Used
to instantiate the abstract `parseTs` at concrete inputs. -/
def parseTsModel (v : Option String) : Option Nat :=
  match v with
  | none => none
  | some s => if !s.isEmpty && s.data.all isDig then some (digitsToNat s.data) else none

/-- Model of `pd.to_numeric(_, errors="coerce").astype("Int64")` on integer
literals with an optional sign (the fragment exercised here). -/
def parseIdxModel (v : Option String) : Option Int :=
  match v with
  | none => none
  | some s =>
    match s.data with
    | '-' :: ds => if !ds.isEmpty && ds.all isDig then some (-(Int.ofNat (digitsToNat ds))) else none
    | ds => if !ds.isEmpty && ds.all isDig then some (Int.ofNat (digitsToNat ds)) else none

/-! ## Series building and downsampling (metrics_report.py lines 17, 228-244) -/

/-- `MAX_POINTS_PER_SERIES` (line 17). -/
def MAX_POINTS_PER_SERIES : Nat := 1000

/-- `sdf.iloc[::step]`: the rows at positions `0, step, 2*step, ...`
(`fuel` makes the recursion structural; it is called with
`fuel = xs.length`, enough to reach the end of the list). -/
def ilocStrideF {α : Type} : Nat → List α → Nat → List α
  | 0, _, _ => []
  | _, [], _ => []
  | fuel + 1, x :: rest, step => x :: ilocStrideF fuel (rest.drop (step - 1)) step

/-- `sdf.iloc[::step]` for `step ≥ 1`. -/
def ilocStride {α : Type} (xs : List α) (step : Nat) : List α :=
  ilocStrideF xs.length xs step

/-- The per-partition downsampling of lines 233-236: keep everything when
the partition is within the point budget, otherwise take every `step`-th
row with `step = max(1, ceil(n / MAX_POINTS_PER_SERIES))`. -/
def downsample {α : Type} (xs : List α) : List α :=
  if xs.length ≤ MAX_POINTS_PER_SERIES then xs
  else ilocStride xs
    (max 1 ((xs.length + MAX_POINTS_PER_SERIES - 1) / MAX_POINTS_PER_SERIES))

/-! ## Report assembly: `generate_html_report` (metrics_report.py 186-419)

Only the payload-building pipeline is modelled (the HTML/JS template is
presentation plumbing).  The success value stands for the single
`out_path.write_text(...)` performed after every file has been processed;
an `Except.error` result means no output file is written. -/

/-- Insert a GPU index into an ascending duplicate-free list
(`sorted(df["gpu_index"].unique())`). -/
def insertSortedNubInt (x : Int) : List Int → List Int
  | [] => [x]
  | y :: rest =>
    if x < y then x :: y :: rest
    else if x == y then y :: rest
    else y :: insertSortedNubInt x rest

/-- `sorted(df["gpu_index"].unique())`. -/
def sortedGpus {τ : Type} (samples : List (Sample τ)) : List Int :=
  (samples.map (fun s => s.gpuIndex)).foldr insertSortedNubInt []

/-- The per-file portion of the payload: the identity key, the normalized
rows, and the per-GPU downsampled series (shared by every metric's trace). -/
structure FileReport (τ : Type) where
  key : String
  samples : List (Sample τ)
  series : List (Int × List (Sample τ))

/-- Per-file processing inside the report loop (lines 216-255). -/
def processFile {τ : Type} (parseTs : Option String → Option τ)
    (parseIdx : Option String → Option Int)
    (readCsv : String → List String × List (List String)) (mf : MFile) :
    Except ReportError (FileReport τ) := do
  let (headers, rows) := readCsv mf.csvPath
  let samples ← loadMetricsRows parseTs parseIdx mf.csvPath headers rows
  pure { key := mfileKey mf.phase mf.timestamp
         samples := samples
         series := (sortedGpus samples).map
           (fun g => (g, downsample (samples.filter (fun s => s.gpuIndex == g)))) }

/-- The `for mf in files:` loop; the first failing file aborts the run. -/
def processAll {τ : Type} (parseTs : Option String → Option τ)
    (parseIdx : Option String → Option Int)
    (readCsv : String → List String × List (List String)) :
    List MFile → Except ReportError (List (FileReport τ))
  | [] => Except.ok []
  | f :: rest =>
    match processFile parseTs parseIdx readCsv f with
    | Except.error e => Except.error e
    | Except.ok r =>
      match processAll parseTs parseIdx readCsv rest with
      | Except.error e => Except.error e
      | Except.ok rs => Except.ok (r :: rs)

/-- The written report: the output path and the assembled payload pieces.
Producing this value models the single `out_path.write_text(html)` at lines
417-418. -/
structure WrittenReport (τ : Type) where
  outPath : String
  reports : List (FileReport τ)
  metas : List MetaRecord

/-- `generate_html_report` (lines 186-419): discover, fail when no files
match, process every file, and only then write the output. -/
def generateHtmlReport {τ : Type} (parseTs : Option String → Option τ)
    (parseIdx : Option String → Option Int) (metricsDir outPath : String)
    (dirEntries : Option (List String))
    (readCsv : String → List String × List (List String))
    (readMeta : String → Option String) :
    Except ReportError (WrittenReport τ) :=
  match discoverMetricsFiles dirEntries with
  | Except.error e => Except.error e
  | Except.ok files =>
    if files.isEmpty then Except.error (ReportError.noFiles metricsDir)
    else
      match processAll parseTs parseIdx readCsv files with
      | Except.error e => Except.error e
      | Except.ok reports =>
        Except.ok { outPath := outPath
                    reports := reports
                    metas := files.map (fun f => parseMetaFile (readMeta f.csvPath)) }

/-- A concrete header row in the nvidia-smi style (unit annotations after
the semantic prefixes), used to instantiate theorems. -/
def csvHeadersU : List String :=
  ["timestamp", " index", "utilization.gpu [%]", "utilization.memory [%]",
   "power.draw [W]", "clocks.current.sm [MHz]", "clocks.current.memory [MHz]",
   "temperature.gpu", "memory.used [MiB]", "memory.total [MiB]"]

/-- A concrete data row whose measurement cells are all `N/A`. -/
def naRow (ts idx : String) : List String :=
  [ts, idx, "N/A", "N/A", "N/A", "N/A", "N/A", "N/A", "N/A", "N/A"]

/-- The spec's per-GPU monotonicity invariant on a normalized row list:
any two rows with the same GPU index appear in non-decreasing timestamp
order. -/
def perGpuMonotone {τ : Type} [LE τ] (l : List (Sample τ)) : Prop :=
  l.Pairwise (fun a b => a.gpuIndex = b.gpuIndex → a.ts ≤ b.ts)

/-! ## Lemmas about the stride slice -/

theorem ilocStrideF_getElem? {α : Type} (step : Nat) (hs : 1 ≤ step) :
    ∀ (fuel : Nat) (xs : List α), xs.length ≤ fuel →
      ∀ k, (ilocStrideF fuel xs step)[k]? = xs[k * step]? := by
  intro fuel
  induction fuel with
  | zero =>
    intro xs hxs k
    have : xs = [] := List.eq_nil_of_length_eq_zero (Nat.le_zero.mp hxs)
    subst this
    simp [ilocStrideF]
  | succ fuel ih =>
    intro xs hxs k
    cases xs with
    | nil => simp [ilocStrideF]
    | cons x rest =>
      cases k with
      | zero => simp [ilocStrideF]
      | succ k =>
        have hlen : (rest.drop (step - 1)).length ≤ fuel := by
          simp only [List.length_drop]
          simp only [List.length_cons] at hxs
          omega
        calc (ilocStrideF (fuel + 1) (x :: rest) step)[k + 1]?
            = (ilocStrideF fuel (rest.drop (step - 1)) step)[k]? := by
              simp [ilocStrideF]
          _ = (rest.drop (step - 1))[k * step]? := ih _ hlen k
          _ = rest[(step - 1) + k * step]? := List.getElem?_drop _ _ _
          _ = (x :: rest)[(k + 1) * step]? := by
              have hmul : (k + 1) * step = k * step + step := Nat.succ_mul k step
              have heq : (k + 1) * step = ((step - 1) + k * step) + 1 := by omega
              rw [heq, List.getElem?_cons_succ]

theorem ilocStrideF_length {α : Type} (step : Nat) (hs : 1 ≤ step) :
    ∀ (fuel : Nat) (xs : List α), xs.length ≤ fuel →
      (ilocStrideF fuel xs step).length = (xs.length + (step - 1)) / step := by
  intro fuel
  induction fuel with
  | zero =>
    intro xs hxs
    have : xs = [] := List.eq_nil_of_length_eq_zero (Nat.le_zero.mp hxs)
    subst this
    simp [ilocStrideF, Nat.div_eq_of_lt (by omega : step - 1 < step)]
  | succ fuel ih =>
    intro xs hxs
    cases xs with
    | nil => simp [ilocStrideF, Nat.div_eq_of_lt (by omega : step - 1 < step)]
    | cons x rest =>
      have hlen : (rest.drop (step - 1)).length ≤ fuel := by
        simp only [List.length_drop]
        simp only [List.length_cons] at hxs
        omega
      have hstep0 : 0 < step := hs
      simp only [ilocStrideF, List.length_cons, ih _ hlen, List.length_drop]
      rcases Nat.le_total (step - 1) rest.length with hc | hc
      · have h1 : rest.length - (step - 1) + (step - 1) = rest.length := by omega
        have h2 : rest.length + 1 + (step - 1) = rest.length + step := by omega
        rw [h1, h2, Nat.add_div_right _ hstep0]
      · have h1 : rest.length - (step - 1) = 0 := by omega
        have h2 : rest.length + 1 + (step - 1) = rest.length + step := by omega
        rw [h1, h2, Nat.add_div_right _ hstep0, Nat.zero_add,
            Nat.div_eq_of_lt (by omega : step - 1 < step),
            Nat.div_eq_of_lt (by omega : rest.length < step)]

theorem ilocStride_getElem? {α : Type} (xs : List α) (step : Nat) (hs : 1 ≤ step)
    (k : Nat) : (ilocStride xs step)[k]? = xs[k * step]? :=
  ilocStrideF_getElem? step hs xs.length xs (Nat.le_refl _) k

theorem ilocStride_length {α : Type} (xs : List α) (step : Nat) (hs : 1 ≤ step) :
    (ilocStride xs step).length = (xs.length + (step - 1)) / step :=
  ilocStrideF_length step hs xs.length xs (Nat.le_refl _)

/-- Claim C1 — the downsampled series over a partition of size `S > 1000` is
exactly the rows at input positions `0, step, 2*step, ...` where
`step = max(1, ceil(S / 1000))`; its length is `ceil(S / step) ≤ 1000`; the
first original point is always present; the last kept row sits at position
`((S-1)/step)*step`, which equals the last input position exactly when
`(S-1)` is a multiple of `step` (so the last original point is present only
then). -/
theorem downsample_large_partition {α : Type} (xs : List α) (step : Nat)
    (h : 1000 < xs.length)
    (hstep : step = max 1 ((xs.length + 999) / 1000)) :
    (∀ k, (downsample xs)[k]? = xs[k * step]?) ∧
    (downsample xs).length = (xs.length + (step - 1)) / step ∧
    (downsample xs).length ≤ 1000 ∧
    (downsample xs).head? = xs.head? ∧
    (downsample xs).getLast? = xs[(xs.length - 1) / step * step]? ∧
    ((xs.length - 1) % step = 0 → (downsample xs).getLast? = xs.getLast?) := by
  have hmax : MAX_POINTS_PER_SERIES = 1000 := rfl
  have hd : downsample xs = ilocStride xs step := by
    unfold downsample
    rw [hmax, if_neg (by omega), hstep]
    have e : xs.length + 1000 - 1 = xs.length + 999 := by omega
    rw [e]
  have hs : 1 ≤ step := by rw [hstep]; exact Nat.le_max_left _ _
  have hget : ∀ k, (downsample xs)[k]? = xs[k * step]? := by
    intro k; rw [hd]; exact ilocStride_getElem? xs step hs k
  have hlen : (downsample xs).length = (xs.length + (step - 1)) / step := by
    rw [hd]; exact ilocStride_length xs step hs
  have hn1000 : xs.length ≤ step * 1000 := by
    have h1 : 1000 * ((xs.length + 999) / 1000) ≥ xs.length := by omega
    have h2 : (xs.length + 999) / 1000 ≤ step := by rw [hstep]; exact Nat.le_max_right _ _
    calc xs.length ≤ 1000 * ((xs.length + 999) / 1000) := h1
      _ ≤ 1000 * step := Nat.mul_le_mul_left _ h2
      _ = step * 1000 := Nat.mul_comm _ _
  have hle : (downsample xs).length ≤ 1000 := by
    rw [hlen]
    calc (xs.length + (step - 1)) / step
        ≤ (step * 1000 + (step - 1)) / step :=
          Nat.div_le_div_right (by omega)
      _ = 1000 + (step - 1) / step := Nat.mul_add_div hs _ _
      _ = 1000 := by rw [Nat.div_eq_of_lt (by omega : step - 1 < step)]
  have hlen1 : (downsample xs).length - 1 = (xs.length - 1) / step := by
    rw [hlen]
    have : xs.length + (step - 1) = (xs.length - 1) + step := by omega
    rw [this, Nat.add_div_right _ hs]
    exact Nat.add_sub_cancel _ _
  have hlast : (downsample xs).getLast? = xs[(xs.length - 1) / step * step]? := by
    rw [List.getLast?_eq_getElem?, hget, hlen1]
  refine ⟨hget, hlen, hle, ?_, hlast, ?_⟩
  · rw [List.head?_eq_getElem?, List.head?_eq_getElem?]
    simpa using hget 0
  · intro hdvd
    rw [hlast, Nat.div_mul_cancel (Nat.dvd_of_mod_eq_zero hdvd),
        List.getLast?_eq_getElem?]

/-- Witness for C1 at a partition of 1001 rows (stride 2). -/
theorem downsample_large_partition_witness :
    (downsample (List.range 1001))[1]? = (List.range 1001)[2]? ∧
    (downsample (List.range 1001)).length ≤ 1000 ∧
    (downsample (List.range 1001)).head? = (List.range 1001).head? ∧
    (downsample (List.range 1001)).getLast? = (List.range 1001)[500 * 2]? :=
  by
  have h := downsample_large_partition (List.range 1001) 2
    (by simp) (by simp)
  exact ⟨h.1 1, h.2.2.1, h.2.2.2.1, by simpa using h.2.2.2.2.1⟩

/-- Claim C2 — downsampling is the identity on partitions of at most 1000
rows. -/
theorem downsample_small_identity {α : Type} (xs : List α)
    (h : xs.length ≤ 1000) : downsample xs = xs := by
  unfold downsample
  rw [if_pos]
  exact h

/-- Witness for C2. -/
theorem downsample_small_identity_witness :
    downsample [(10 : ℚ), 20, 30] = [10, 20, 30] :=
  downsample_small_identity _ (by decide)

/-- Claim C10 — a directory entry shaped like the naming convention but with
an impossible calendar date-time (month 13, etc.) makes discovery surface the
`strptime` `ValueError` instead of skipping the file or returning a result. -/
theorem discover_invalid_timestamp_raises :
    discoverMetricsFiles (some ["gpu_x_20241399_256161.csv"]) =
      Except.error (ReportError.badTimestamp "20241399_256161") := rfl

/-! ## Round-trip of the identity key's timestamp (claim C6) -/

theorem isDig_digitChar_mod (m : Nat) : isDig (digitChar (m % 10)) = true := by
  have h : m % 10 < 10 := Nat.mod_lt _ (by decide)
  generalize m % 10 = k at h
  interval_cases k <;> decide

theorem digitVal_digitChar_mod (m : Nat) : digitVal (digitChar (m % 10)) = m % 10 := by
  have h : m % 10 < 10 := Nat.mod_lt _ (by decide)
  generalize m % 10 = k at h
  interval_cases k <;> decide

theorem digitsToNat_pad4 (n : Nat) (h : n < 10000) :
    digitsToNat [digitChar (n / 1000 % 10), digitChar (n / 100 % 10),
                 digitChar (n / 10 % 10), digitChar (n % 10)] = n := by
  simp only [digitsToNat, List.foldl, digitVal_digitChar_mod]
  omega

theorem digitsToNat_pad2 (n : Nat) (h : n < 100) :
    digitsToNat [digitChar (n / 10 % 10), digitChar (n % 10)] = n := by
  simp only [digitsToNat, List.foldl, digitVal_digitChar_mod]
  omega

theorem daysInMonth_le_31 (y m : Nat) : daysInMonth y m ≤ 31 := by
  unfold daysInMonth
  split
  · split <;> omega
  · split <;> omega

theorem strftime_strptime_roundtrip (t : PyDateTime) (hv : validDT t = true) :
    strptimeYmdHMS (strftimeYmdHMS t) = some t := by
  obtain ⟨y, mo, d, h, mi, s⟩ := t
  have hb : y ≤ 9999 ∧ mo ≤ 12 ∧ d ≤ daysInMonth y mo ∧ h ≤ 23 ∧ mi ≤ 59 ∧
      s ≤ 59 := by
    simp only [validDT, Bool.and_eq_true, decide_eq_true_eq] at hv
    refine ⟨?_, ?_, ?_, ?_, ?_, ?_⟩ <;> omega
  have hd31 : d ≤ 31 := le_trans hb.2.2.1 (daysInMonth_le_31 y mo)
  simp only [strftimeYmdHMS, pad4, pad2, strptimeYmdHMS, List.cons_append,
    List.nil_append]
  simp only [isDig_digitChar_mod, beq_self_eq_true, Bool.and_self, if_true]
  rw [digitsToNat_pad4 y (by omega), digitsToNat_pad2 mo (by omega),
      digitsToNat_pad2 d (by omega), digitsToNat_pad2 h (by omega),
      digitsToNat_pad2 mi (by omega), digitsToNat_pad2 s (by omega), hv]
  simp

theorem validDT_of_strptime (s : String) (t : PyDateTime)
    (h : strptimeYmdHMS s = some t) : validDT t = true := by
  unfold strptimeYmdHMS at h
  split at h
  · split at h
    · split at h
      · rename_i hval
        cases h
        exact hval
      · simp at h
    · simp at h
  · simp at h

theorem strftime_length (t : PyDateTime) : (strftimeYmdHMS t).data.length = 15 := by
  simp [strftimeYmdHMS, pad4, pad2]

theorem strTakeRight_key (phase : String) (t : PyDateTime) :
    strTakeRight (mfileKey phase t) 15 = strftimeYmdHMS t := by
  unfold strTakeRight mfileKey
  rw [String.data_append, String.data_append]
  have hlen : (strftimeYmdHMS t).data.length = 15 := strftime_length t
  have h1 : (phase.data ++ "__".data) ++ (strftimeYmdHMS t).data =
      (phase ++ "__").data ++ (strftimeYmdHMS t).data := by
    rw [String.data_append]
  have h2 : ((phase.data ++ "__".data) ++ (strftimeYmdHMS t).data).length -
      15 = (phase.data ++ "__".data).length := by
    simp [List.length_append, hlen]
  rw [List.append_assoc] at h2 ⊢
  rw [show phase.data ++ ("__".data ++ (strftimeYmdHMS t).data) =
        (phase.data ++ "__".data) ++ (strftimeYmdHMS t).data from
        (List.append_assoc _ _ _).symm] at h2 ⊢
  rw [h2, List.drop_left]

/-- Claim C6 — for a filename matching `gpu_<phase>_<YYYYMMDD_HHMMSS>.csv`,
the identity key is `phase + "__" + strftime("%Y%m%d_%H%M%S")`, and parsing
the key's 15-character timestamp suffix with the same format reproduces the
timestamp parsed from the filename. -/
theorem metrics_key_roundtrip (name phase ts : String) (t : PyDateTime)
    (_hm : gpuCsvMatch name = some (phase, ts))
    (hp : strptimeYmdHMS ts = some t) :
    mfileKey phase t = phase ++ "__" ++ strftimeYmdHMS t ∧
    strTakeRight (mfileKey phase t) 15 = strftimeYmdHMS t ∧
    strptimeYmdHMS (strTakeRight (mfileKey phase t) 15) = some t := by
  refine ⟨rfl, strTakeRight_key phase t, ?_⟩
  rw [strTakeRight_key phase t]
  exact strftime_strptime_roundtrip t (validDT_of_strptime ts t hp)

/-- Witness for C6 on `gpu_train_20240102_030405.csv`. -/
theorem metrics_key_roundtrip_witness :
    mfileKey "train" ⟨2024, 1, 2, 3, 4, 5⟩ =
      "train" ++ "__" ++ strftimeYmdHMS ⟨2024, 1, 2, 3, 4, 5⟩ ∧
    strTakeRight (mfileKey "train" ⟨2024, 1, 2, 3, 4, 5⟩) 15 =
      strftimeYmdHMS ⟨2024, 1, 2, 3, 4, 5⟩ ∧
    strptimeYmdHMS (strTakeRight (mfileKey "train" ⟨2024, 1, 2, 3, 4, 5⟩) 15) =
      some ⟨2024, 1, 2, 3, 4, 5⟩ :=
  metrics_key_roundtrip "gpu_train_20240102_030405.csv" "train"
    "20240102_030405" ⟨2024, 1, 2, 3, 4, 5⟩ (by decide) (by decide)

/-! ## The unit-suffix coercion claim (C5) -/

theorem scanFloatToken_none (l : List Char) (h : ∀ c ∈ l, isDig c = false) :
    scanFloatToken l = none := by
  induction l with
  | nil => rfl
  | cons c rest ih =>
    have hc : isDig c = false := h c (by simp)
    have hr : ∀ x ∈ rest, isDig x = false := fun x hx => h x (by simp [hx])
    have hhead : headIsDig rest = false := by
      cases rest with
      | nil => rfl
      | cons d rs => exact hr d (by simp)
    simp only [scanFloatToken, hc, hhead, Bool.and_false, Bool.false_eq_true,
      if_false]
    exact ih hr

theorem mem_stripChars {c : Char} {l : List Char} (h : c ∈ stripChars l) :
    c ∈ l := by
  unfold stripChars at h
  rw [List.mem_reverse] at h
  have h1 := (List.dropWhile_sublist isPySpace).mem h
  rw [List.mem_reverse] at h1
  exact (List.dropWhile_sublist isPySpace).mem h1

theorem mem_stripUnitAux {c : Char} (s u : String)
    (h : c ∈ (stripUnitAux s u).data) : c ∈ s.data := by
  unfold stripUnitAux pyStrip at h
  have h1 := mem_stripChars h
  split at h1
  · have h2 := mem_stripChars h1
    unfold dropSuffixStr at h2
    exact (List.take_sublist _ _).mem h2
  · exact h1

theorem isDig_false_of_asciiLower (x y : Char) (hxy : asciiLower x = y)
    (hy : isDig y = false) : isDig x = false := by
  unfold asciiLower at hxy
  split at hxy
  · rename_i hup
    simp only [Bool.and_eq_true, decide_eq_true_eq] at hup
    simp only [isDig, Bool.and_eq_true, decide_eq_true_eq, Bool.not_eq_true]
    rw [Bool.and_eq_false_iff]
    right
    simp only [decide_eq_false_iff_not, Nat.not_le]
    omega
  · rw [hxy]; exact hy

theorem noDig_of_lower_na (l : List Char)
    (h : l.map asciiLower = ['n', '/', 'a']) : ∀ c ∈ l, isDig c = false := by
  cases l with
  | nil => simp at h
  | cons a t =>
    cases t with
    | nil => simp at h
    | cons b t2 =>
      cases t2 with
      | nil => simp at h
      | cons c3 t3 =>
        cases t3 with
        | cons d t4 => simp at h
        | nil =>
          simp only [List.map_cons, List.map_nil, List.cons.injEq,
            and_true] at h
          intro c hc
          rcases List.mem_cons.mp hc with rfl | hc2
          · exact isDig_false_of_asciiLower c 'n' h.1 (by decide)
          rcases List.mem_cons.mp hc2 with rfl | hc3
          · exact isDig_false_of_asciiLower c '/' h.2.1 (by decide)
          rcases List.mem_cons.mp hc3 with rfl | hc4
          · exact isDig_false_of_asciiLower c 'a' h.2.2 (by decide)
          · simp at hc4

theorem stripUnitAux_empty (u : String) : stripUnitAux "" u = "" := by
  unfold stripUnitAux
  split
  · have hd : dropSuffixStr "" u = "" := by
      unfold dropSuffixStr
      rw [show ("" : String).data = [] from rfl, List.take_nil]
    rw [hd]
    rfl
  · rfl

set_option maxRecDepth 20000 in
/-- Claim C5 — `"45 %"` with suffix `"%"` coerces to `45.0`; `"12.50 W"`
with `"W"` to `12.5`; `"1515 MHz"` with `"MHz"` to `1515.0`; `"N/A"` is a
missing value for every suffix; and whenever direct float parsing of the
suffix-stripped string fails, the result is the first float-looking
substring (missing exactly when no such substring exists). -/
theorem to_float_unit_coercion :
    toFloatUnit (some "45 %") "%" = some 45 ∧
    toFloatUnit (some "12.50 W") "W" = some (25 / 2) ∧
    toFloatUnit (some "1515 MHz") "MHz" = some 1515 ∧
    (∀ u, toFloatUnit (some "N/A") u = none) ∧
    (∀ v u, pyFloat? (stripUnit v u) = none →
      toFloatUnit (some v) u = firstFloatToken (stripUnit v u)) := by
  refine ⟨by with_unfolding_all decide, by with_unfolding_all decide,
    by with_unfolding_all decide, fun u => rfl, ?_⟩
  intro v u hpf
  unfold stripUnit at hpf
  show (if (pyStrip v).data.isEmpty || pyLower (pyStrip v) == "n/a" then none
        else match pyFloat? (stripUnitAux (pyStrip v) u) with
             | some x => some x
             | none => firstFloatToken (stripUnitAux (pyStrip v) u)) =
    firstFloatToken (stripUnit v u)
  unfold stripUnit
  cases hguard : ((pyStrip v).data.isEmpty || pyLower (pyStrip v) == "n/a") with
  | true =>
    rw [if_pos rfl]
    rcases Bool.or_eq_true_iff.mp hguard with hemp | hna
    · have hv0 : pyStrip v = "" := by
        have : (pyStrip v).data = [] := by
          have := hemp
          rwa [List.isEmpty_iff] at this
        unfold pyStrip at this ⊢
        rw [show ("" : String) = String.mk [] from rfl]
        exact congrArg String.mk ((congrArg String.data (congrArg String.mk rfl)).trans this)
      rw [hv0, stripUnitAux_empty]
      rfl
    · have hmap : (pyStrip v).data.map asciiLower = ['n', '/', 'a'] := by
        have : pyLower (pyStrip v) = "n/a" := eq_of_beq hna
        unfold pyLower at this
        exact congrArg String.data this
      have hnodig := noDig_of_lower_na _ hmap
      have : ∀ c ∈ (stripUnitAux (pyStrip v) u).data, isDig c = false :=
        fun c hc => hnodig c (mem_stripUnitAux _ _ hc)
      unfold firstFloatToken
      rw [scanFloatToken_none _ this]
  | false =>
    rw [if_neg Bool.false_ne_true]
    rw [hpf]

/-- Witness for C5: the `"N/A"` case and the fallback case at a string with
no numeric substring. -/
theorem to_float_unit_coercion_witness :
    toFloatUnit (some "N/A") "W" = none ∧
    toFloatUnit (some "abc") "%" = firstFloatToken (stripUnit "abc" "%") :=
  ⟨to_float_unit_coercion.2.2.2.1 "W",
   to_float_unit_coercion.2.2.2.2 "abc" "%" rfl⟩

/-! ## Metadata dictionary lemmas (claim C7) -/

theorem find?_map_overwrite (k v : String) :
    ∀ (m : List (String × String)), m.any (fun p => p.1 == k) = true →
      (m.map (fun p => if p.1 == k then (k, v) else p)).find?
        (fun p => p.1 == k) = some (k, v) := by
  intro m
  induction m with
  | nil => intro h; simp at h
  | cons p rest ih =>
    intro hany
    by_cases hp : p.1 == k
    · simp [List.find?, hp]
    · have hany' : rest.any (fun q => q.1 == k) = true := by
        simp only [List.any_cons, hp, Bool.false_or] at hany
        exact hany
      simp only [List.map_cons, if_neg hp, List.find?]
      rw [show (p.1 == k) = false from by simp [hp]]
      exact ih hany'

theorem find?_map_other (k v k' : String) (hk : ¬k' = k) :
    ∀ (m : List (String × String)),
      (m.map (fun p => if p.1 == k then (k, v) else p)).find?
        (fun p => p.1 == k') = m.find? (fun p => p.1 == k') := by
  intro m
  induction m with
  | nil => rfl
  | cons p rest ih =>
    by_cases hp : p.1 == k
    · have hpk : p.1 = k := eq_of_beq hp
      have h1 : (k == k') = false := by
        simp only [beq_eq_false_iff_ne, ne_eq]
        intro h; exact hk h.symm
      have h2 : (p.1 == k') = false := by rw [hpk]; exact h1
      simp only [List.map_cons, if_pos hp, List.find?, h1, h2]
      exact ih
    · simp only [List.map_cons, if_neg hp]
      cases hc : (p.1 == k') with
      | true => simp only [List.find?_cons, hc]
      | false =>
        simp only [List.find?_cons, hc]
        exact ih

theorem dictLookup_insert (m : List (String × String)) (k v k' : String) :
    dictLookup (dictInsert m k v) k' =
      if k' = k then some v else dictLookup m k' := by
  unfold dictInsert dictLookup
  split
  · rename_i hany
    by_cases hk : k' = k
    · rw [hk, find?_map_overwrite k v m hany, if_pos rfl]
      rfl
    · rw [find?_map_other k v k' hk m, if_neg hk]
  · rename_i hany
    rw [List.find?_append]
    by_cases hk : k' = k
    · have hnone : m.find? (fun p => p.1 == k') = none := by
        rw [List.find?_eq_none]
        intro x hx hpx
        have hx2 : m.any (fun p => p.1 == k') = true :=
          List.any_eq_true.mpr ⟨x, hx, hpx⟩
        rw [hk] at hx2
        rw [hx2] at hany
        exact absurd rfl hany
      rw [hnone, if_pos hk]
      have hkk : (k == k') = true := by
        rw [beq_iff_eq]
        exact hk.symm
      simp [List.find?_cons, hkk, Option.or]
    · have h1 : (k == k') = false := by
        simp only [beq_eq_false_iff_ne, ne_eq]
        intro h; exact hk h.symm
      rw [if_neg hk]
      simp only [List.find?_cons, h1, List.find?_nil]
      cases hm : m.find? (fun p => p.1 == k') <;> rfl

theorem foldl_kvStep_lookup (k : String) :
    ∀ (ls : List String) (m : List (String × String)),
      dictLookup (ls.foldl kvStep m) k =
        match (ls.filterMap kvOfLine?).reverse.find? (fun p => p.1 == k) with
        | some p => some p.2
        | none => dictLookup m k := by
  intro ls
  induction ls with
  | nil => intro m; rfl
  | cons line rest ih =>
    intro m
    rw [List.foldl_cons]
    cases hkv : kvOfLine? line with
    | none =>
      rw [show kvStep m line = m from by simp [kvStep, hkv]]
      rw [ih m]
      rw [List.filterMap_cons_none hkv]
    | some p0 =>
      obtain ⟨k0, v0⟩ := p0
      rw [show kvStep m line = dictInsert m k0 v0 from by simp [kvStep, hkv]]
      rw [ih (dictInsert m k0 v0)]
      rw [List.filterMap_cons_some hkv, List.reverse_cons, List.find?_append]
      cases hf : (rest.filterMap kvOfLine?).reverse.find? (fun p => p.1 == k) with
      | some p => simp [Option.or]
      | none =>
        simp only [Option.or]
        rw [dictLookup_insert]
        by_cases hk : k = k0
        · subst hk
          simp [List.find?]
        · have h1 : (k0 == k) = false := by
            simp only [beq_eq_false_iff_ne, ne_eq]
            intro h; exact hk h.symm
          simp [List.find?, h1, hk]

/-- Claim C7 — metadata parsing: a missing file yields the empty record; the
value stored for key `k` is the trimmed value of the last line containing
`=` (and not starting with `[`) whose trimmed key is `k` (later duplicates
overwrite); `driver_version = 535.129.03` and a `GPU ...(UUID: ...)` line
parse as in the spec while `[Driver Info]` contributes nothing (including
the backtracking case `(UUID:  )`, which the regex engine matches with a
whitespace uuid); and the GPU-identity list collects the matching lines in
file order, stored only when at least one line matches. -/
theorem parse_meta_spec :
    parseMetaFile none = ⟨[], none⟩ ∧
    (∀ text k, dictLookup (parseMetaFile (some text)).kvs k =
      (((splitLines text).filterMap kvOfLine?).reverse.find?
        (fun p => p.1 == k)).map (fun p => p.2)) ∧
    parseMetaFile (some "[Driver Info]\ndriver_version = 535.129.03\nGPU 0: NVIDIA RTX A5000 (UUID: GPU-abc123)") =
      ⟨[("driver_version", "535.129.03")],
       some [⟨"0", "NVIDIA RTX A5000", "GPU-abc123"⟩]⟩ ∧
    parseMetaFile (some "GPU 0: name (UUID:  )") =
      ⟨[], some [⟨"0", "name", " "⟩]⟩ ∧
    (∀ text,
      ((parseMetaFile (some text)).gpus = none ↔
        ∀ line ∈ splitLines text, parseGpuLine line = none) ∧
      (∀ gl, (parseMetaFile (some text)).gpus = some gl →
        gl = (splitLines text).filterMap parseGpuLine)) := by
  refine ⟨rfl, ?_, by decide, by decide, ?_⟩
  · intro text k
    show dictLookup ((splitLines text).foldl kvStep []) k = _
    rw [foldl_kvStep_lookup k (splitLines text) []]
    cases hf : ((splitLines text).filterMap kvOfLine?).reverse.find?
        (fun p => p.1 == k) <;> simp [dictLookup, List.find?]
  · intro text
    constructor
    · show (if ((splitLines text).filterMap parseGpuLine).isEmpty then none
            else some ((splitLines text).filterMap parseGpuLine)) = none ↔ _
      constructor
      · intro h
        split at h
        · rename_i hemp
          rw [List.isEmpty_eq_true, List.filterMap_eq_nil_iff] at hemp
          exact hemp
        · simp at h
      · intro h
        rw [if_pos (List.isEmpty_eq_true.mpr (List.filterMap_eq_nil_iff.mpr h))]
    · intro gl hgl
      revert hgl
      show (if ((splitLines text).filterMap parseGpuLine).isEmpty then none
            else some ((splitLines text).filterMap parseGpuLine)) = some gl → _
      split
      · intro h; simp at h
      · intro h
        exact (Option.some.inj h).symm

/-- Witness for C7: the duplicate-overwrite lookup at a concrete file. -/
theorem parse_meta_spec_witness :
    dictLookup (parseMetaFile (some "a = 1\na = 2")).kvs "a" =
      ((((splitLines "a = 1\na = 2").filterMap kvOfLine?).reverse.find?
        (fun p => p.1 == "a")).map (fun p => p.2)) ∧
    ((parseMetaFile (some "x")).gpus = none ↔
      ∀ line ∈ splitLines "x", parseGpuLine line = none) :=
  ⟨parse_meta_spec.2.1 "a = 1\na = 2" "a", (parse_meta_spec.2.2.2.2 "x").1⟩

/-! ## CSV normalization lemmas (claims C3, C4, C9) -/

theorem except_bind_ok {ε α β : Type} (a : α) (f : α → Except ε β) :
    (Except.ok a >>= f : Except ε β) = f a := rfl

theorem except_bind_err {ε α β : Type} (e : ε) (f : α → Except ε β) :
    (Except.error e >>= f : Except ε β) = Except.error e := rfl

theorem except_map_ok {ε α β : Type} (f : α → β) (a : α) :
    (f <$> (Except.ok a : Except ε α) : Except ε β) = Except.ok (f a) := rfl

theorem except_map_err {ε α β : Type} (f : α → β) (e : ε) :
    (f <$> (Except.error e : Except ε α) : Except ε β) = Except.error e := rfl

theorem findColIdx_none_iff (pre : String) :
    ∀ cols : List String,
      findColIdx pre cols = none ↔ ∀ c ∈ cols, strStartsWith c pre = false := by
  intro cols
  induction cols with
  | nil => simp [findColIdx]
  | cons c rest ih =>
    unfold findColIdx
    by_cases hc : strStartsWith c pre
    · simp [hc]
    · rw [if_neg hc]
      constructor
      · intro h x hx
        rcases List.mem_cons.mp hx with rfl | hx2
        · simpa using hc
        · have hrest : findColIdx pre rest = none := by
            cases hrest : findColIdx pre rest with
            | none => rfl
            | some v => rw [hrest] at h; simp at h
          exact (ih.mp hrest) x hx2
      · intro h
        have hrest : findColIdx pre rest = none :=
          ih.mpr (fun x hx => h x (List.mem_cons_of_mem _ hx))
        rw [hrest]
        rfl

theorem findColIdx_some_first (pre : String) :
    ∀ (cols : List String) (i : Nat), findColIdx pre cols = some i →
      ∃ hi : i < cols.length,
        strStartsWith (cols.get ⟨i, hi⟩) pre = true ∧
        ∀ j, ∀ hj : j < cols.length, j < i →
          strStartsWith (cols.get ⟨j, hj⟩) pre = false := by
  intro cols
  induction cols with
  | nil => intro i h; simp [findColIdx] at h
  | cons c rest ih =>
    intro i h
    unfold findColIdx at h
    by_cases hc : strStartsWith c pre
    · rw [if_pos hc] at h
      cases h
      exact ⟨by simp, hc, fun j hj hji => absurd hji (Nat.not_lt_zero j)⟩
    · rw [if_neg hc] at h
      rcases Option.map_eq_some'.mp h with ⟨i', hi', rfl⟩
      obtain ⟨hlt, hget, hfirst⟩ := ih i' hi'
      refine ⟨by simpa using Nat.succ_lt_succ hlt, by simpa using hget, ?_⟩
      intro j hj hji
      cases j with
      | zero => simpa using hc
      | succ j' =>
        have hj' : j' < rest.length := by simpa using hj
        simpa using hfirst j' hj' (Nat.lt_of_succ_lt_succ hji)

theorem stage_eq {τ : Type} (pt : Option String → Option τ)
    (pi : Option String → Option Int)
    (iTs iIdx iGu iMu iPw iSc iMc iTc iMU iMT : Nat) :
    ∀ rows : List (List String),
      ((rows.map (wideOfRow pt pi iTs iIdx iGu iMu iPw iSc iMc iTc iMU iMT)).filter
          (fun w => w.ts.isSome && w.gpuIndex.isSome)).filterMap narrowRow =
        rows.filterMap (mkSample pt pi iTs iIdx iGu iMu iPw iSc iMc iTc iMU iMT) := by
  intro rows
  induction rows with
  | nil => rfl
  | cons r rest ih =>
    simp only [List.map_cons, List.filter_cons, List.filterMap_cons]
    cases hts : (wideOfRow pt pi iTs iIdx iGu iMu iPw iSc iMc iTc iMU iMT r).ts with
    | none =>
      have hmk : mkSample pt pi iTs iIdx iGu iMu iPw iSc iMc iTc iMU iMT r = none := by
        unfold mkSample narrowRow
        rw [hts]
      simp only [hts, Option.isSome_none, Bool.false_and, Bool.false_eq_true,
        if_false, hmk, ih]
    | some t =>
      cases hidx : (wideOfRow pt pi iTs iIdx iGu iMu iPw iSc iMc iTc iMU iMT r).gpuIndex with
      | none =>
        have hmk : mkSample pt pi iTs iIdx iGu iMu iPw iSc iMc iTc iMU iMT r = none := by
          unfold mkSample narrowRow
          rw [hts, hidx]
        simp only [hts, hidx, Option.isSome_some, Option.isSome_none,
          Bool.true_and, Bool.false_eq_true, if_false, hmk, ih]
      | some g =>
        have hmk : mkSample pt pi iTs iIdx iGu iMu iPw iSc iMc iTc iMU iMT r =
            narrowRow (wideOfRow pt pi iTs iIdx iGu iMu iPw iSc iMc iTc iMU iMT r) := rfl
        simp only [hts, hidx, Option.isSome_some, Bool.and_self, if_true,
          List.filterMap_cons, hmk, ih]

theorem loadMetricsRows_eq {τ : Type} (pt : Option String → Option τ)
    (pi : Option String → Option Int) (path : String) (headers : List String)
    (rows : List (List String))
    (iTs iIdx iGu iMu iPw iSc iMc iTc iMU iMT : Nat)
    (h1 : findColIdx "timestamp" (headers.map pyStrip) = some iTs)
    (h2 : findColIdx "index" (headers.map pyStrip) = some iIdx)
    (h3 : findColIdx "utilization.gpu" (headers.map pyStrip) = some iGu)
    (h4 : findColIdx "utilization.memory" (headers.map pyStrip) = some iMu)
    (h5 : findColIdx "power.draw" (headers.map pyStrip) = some iPw)
    (h6 : findColIdx "clocks.current.sm" (headers.map pyStrip) = some iSc)
    (h7 : findColIdx "clocks.current.memory" (headers.map pyStrip) = some iMc)
    (h8 : findColIdx "temperature.gpu" (headers.map pyStrip) = some iTc)
    (h9 : findColIdx "memory.used" (headers.map pyStrip) = some iMU)
    (h10 : findColIdx "memory.total" (headers.map pyStrip) = some iMT) :
    loadMetricsRows pt pi path headers rows =
      Except.ok (rows.filterMap
        (mkSample pt pi iTs iIdx iGu iMu iPw iSc iMc iTc iMU iMT)) := by
  simp only [loadMetricsRows, findColE, h1, h2, h3, h4, h5, h6, h7, h8, h9,
    h10, except_bind_ok, except_map_ok]
  rw [show (pure : List (Sample τ) → Except ReportError (List (Sample τ))) =
        Except.ok from rfl]
  rw [stage_eq]

/-- Claim C3 — when some required semantic prefix matches no (stripped)
header column, loading fails with the error naming a genuinely missing
prefix together with the CSV path and produces no normalized rows; and
whenever a prefix does match, the first matching column in header order is
the one resolved. -/
theorem load_missing_column {τ : Type} (parseTs : Option String → Option τ)
    (parseIdx : Option String → Option Int) (path : String)
    (headers : List String) (rows : List (List String))
    (hmiss : ∃ pre ∈ requiredPrefixes,
      ∀ c ∈ headers.map pyStrip, strStartsWith c pre = false) :
    (∃ pre, pre ∈ requiredPrefixes ∧
      (∀ c ∈ headers.map pyStrip, strStartsWith c pre = false) ∧
      loadMetricsRows parseTs parseIdx path headers rows =
        Except.error (ReportError.missingColumn pre path)) ∧
    (∀ pre i, findColIdx pre (headers.map pyStrip) = some i →
      ∃ hi : i < (headers.map pyStrip).length,
        strStartsWith ((headers.map pyStrip).get ⟨i, hi⟩) pre = true ∧
        ∀ j, ∀ hj : j < (headers.map pyStrip).length, j < i →
          strStartsWith ((headers.map pyStrip).get ⟨j, hj⟩) pre = false) := by
  refine ⟨?_, fun pre i h => findColIdx_some_first pre (headers.map pyStrip) i h⟩
  cases e1 : findColIdx "timestamp" (headers.map pyStrip) with
  | none =>
    exact ⟨"timestamp", by simp [requiredPrefixes],
      (findColIdx_none_iff _ _).mp e1,
      by simp [loadMetricsRows, findColE, e1, except_bind_err]⟩
  | some i1 =>
  cases e2 : findColIdx "index" (headers.map pyStrip) with
  | none =>
    exact ⟨"index", by simp [requiredPrefixes],
      (findColIdx_none_iff _ _).mp e2,
      by simp [loadMetricsRows, findColE, e1, e2, except_bind_ok, except_bind_err]⟩
  | some i2 =>
  cases e3 : findColIdx "utilization.gpu" (headers.map pyStrip) with
  | none =>
    exact ⟨"utilization.gpu", by simp [requiredPrefixes],
      (findColIdx_none_iff _ _).mp e3,
      by simp [loadMetricsRows, findColE, e1, e2, e3, except_bind_ok, except_bind_err]⟩
  | some i3 =>
  cases e4 : findColIdx "utilization.memory" (headers.map pyStrip) with
  | none =>
    exact ⟨"utilization.memory", by simp [requiredPrefixes],
      (findColIdx_none_iff _ _).mp e4,
      by simp [loadMetricsRows, findColE, e1, e2, e3, e4, except_bind_ok, except_bind_err]⟩
  | some i4 =>
  cases e5 : findColIdx "power.draw" (headers.map pyStrip) with
  | none =>
    exact ⟨"power.draw", by simp [requiredPrefixes],
      (findColIdx_none_iff _ _).mp e5,
      by simp [loadMetricsRows, findColE, e1, e2, e3, e4, e5, except_bind_ok, except_bind_err]⟩
  | some i5 =>
  cases e6 : findColIdx "clocks.current.sm" (headers.map pyStrip) with
  | none =>
    exact ⟨"clocks.current.sm", by simp [requiredPrefixes],
      (findColIdx_none_iff _ _).mp e6,
      by simp [loadMetricsRows, findColE, e1, e2, e3, e4, e5, e6, except_bind_ok, except_bind_err]⟩
  | some i6 =>
  cases e7 : findColIdx "clocks.current.memory" (headers.map pyStrip) with
  | none =>
    exact ⟨"clocks.current.memory", by simp [requiredPrefixes],
      (findColIdx_none_iff _ _).mp e7,
      by simp [loadMetricsRows, findColE, e1, e2, e3, e4, e5, e6, e7,
        except_bind_ok, except_bind_err]⟩
  | some i7 =>
  cases e8 : findColIdx "temperature.gpu" (headers.map pyStrip) with
  | none =>
    exact ⟨"temperature.gpu", by simp [requiredPrefixes],
      (findColIdx_none_iff _ _).mp e8,
      by simp [loadMetricsRows, findColE, e1, e2, e3, e4, e5, e6, e7, e8,
        except_bind_ok, except_bind_err]⟩
  | some i8 =>
  cases e9 : findColIdx "memory.used" (headers.map pyStrip) with
  | none =>
    exact ⟨"memory.used", by simp [requiredPrefixes],
      (findColIdx_none_iff _ _).mp e9,
      by simp [loadMetricsRows, findColE, e1, e2, e3, e4, e5, e6, e7, e8, e9,
        except_bind_ok, except_bind_err]⟩
  | some i9 =>
  cases e10 : findColIdx "memory.total" (headers.map pyStrip) with
  | none =>
    exact ⟨"memory.total", by simp [requiredPrefixes],
      (findColIdx_none_iff _ _).mp e10,
      by simp [loadMetricsRows, findColE, e1, e2, e3, e4, e5, e6, e7, e8, e9,
        e10, except_bind_ok, except_bind_err]⟩
  | some i10 =>
    exfalso
    obtain ⟨pre, hpre, hnone⟩ := hmiss
    have hn : findColIdx pre (headers.map pyStrip) = none :=
      (findColIdx_none_iff _ _).mpr hnone
    simp only [requiredPrefixes, List.mem_cons, List.not_mem_nil, or_false] at hpre
    rcases hpre with rfl | rfl | rfl | rfl | rfl | rfl | rfl | rfl | rfl | rfl <;>
      simp_all

/-- Witness for C3: a header set lacking any `temperature.gpu` column. -/
theorem load_missing_column_witness :
    ∃ pre, pre ∈ requiredPrefixes ∧
      (∀ c ∈ (["timestamp", " index", "utilization.gpu [%]",
               "utilization.memory [%]", "power.draw [W]",
               "clocks.current.sm [MHz]", "clocks.current.memory [MHz]",
               "memory.used [MiB]", "memory.total [MiB]"].map pyStrip),
        strStartsWith c pre = false) ∧
      loadMetricsRows parseTsModel parseIdxModel "gpu_train_20240102_030405.csv"
        ["timestamp", " index", "utilization.gpu [%]",
         "utilization.memory [%]", "power.draw [W]",
         "clocks.current.sm [MHz]", "clocks.current.memory [MHz]",
         "memory.used [MiB]", "memory.total [MiB]"] [] =
        Except.error (ReportError.missingColumn pre
          "gpu_train_20240102_030405.csv") :=
  (load_missing_column parseTsModel parseIdxModel
    "gpu_train_20240102_030405.csv" _ []
    ⟨"temperature.gpu", by decide, by decide⟩).1

/-- Claim C4 — with all ten columns resolved, normalization returns exactly
the rows whose timestamp and GPU index both parse (each row independently;
the count is at most the input count), and a kept row records every
measurement field as the unit coercion of its cell, which may be the missing
value without dropping the row. -/
theorem load_normalization_rows {τ : Type} (parseTs : Option String → Option τ)
    (parseIdx : Option String → Option Int) (path : String)
    (headers : List String) (rows : List (List String))
    (iTs iIdx iGu iMu iPw iSc iMc iTc iMU iMT : Nat)
    (h1 : findColIdx "timestamp" (headers.map pyStrip) = some iTs)
    (h2 : findColIdx "index" (headers.map pyStrip) = some iIdx)
    (h3 : findColIdx "utilization.gpu" (headers.map pyStrip) = some iGu)
    (h4 : findColIdx "utilization.memory" (headers.map pyStrip) = some iMu)
    (h5 : findColIdx "power.draw" (headers.map pyStrip) = some iPw)
    (h6 : findColIdx "clocks.current.sm" (headers.map pyStrip) = some iSc)
    (h7 : findColIdx "clocks.current.memory" (headers.map pyStrip) = some iMc)
    (h8 : findColIdx "temperature.gpu" (headers.map pyStrip) = some iTc)
    (h9 : findColIdx "memory.used" (headers.map pyStrip) = some iMU)
    (h10 : findColIdx "memory.total" (headers.map pyStrip) = some iMT) :
    loadMetricsRows parseTs parseIdx path headers rows =
      Except.ok (rows.filterMap
        (mkSample parseTs parseIdx iTs iIdx iGu iMu iPw iSc iMc iTc iMU iMT)) ∧
    (rows.filterMap
      (mkSample parseTs parseIdx iTs iIdx iGu iMu iPw iSc iMc iTc iMU iMT)).length ≤
      rows.length ∧
    (∀ r, mkSample parseTs parseIdx iTs iIdx iGu iMu iPw iSc iMc iTc iMU iMT r =
        none ↔ parseTs (r.get? iTs) = none ∨ parseIdx (r.get? iIdx) = none) ∧
    (∀ r s, mkSample parseTs parseIdx iTs iIdx iGu iMu iPw iSc iMc iTc iMU iMT r =
        some s →
      parseTs (r.get? iTs) = some s.ts ∧
      parseIdx (r.get? iIdx) = some s.gpuIndex ∧
      s.gpuUtilPct = toFloatUnit (r.get? iGu) "%" ∧
      s.memUtilPct = toFloatUnit (r.get? iMu) "%" ∧
      s.powerW = toFloatUnit (r.get? iPw) "W" ∧
      s.smClockMhz = toFloatUnit (r.get? iSc) "MHz" ∧
      s.memClockMhz = toFloatUnit (r.get? iMc) "MHz" ∧
      s.tempC = toFloatUnit (r.get? iTc) "" ∧
      s.memUsedMib = toFloatUnit (r.get? iMU) "MiB" ∧
      s.memTotalMib = toFloatUnit (r.get? iMT) "MiB") := by
  refine ⟨loadMetricsRows_eq parseTs parseIdx path headers rows
    iTs iIdx iGu iMu iPw iSc iMc iTc iMU iMT h1 h2 h3 h4 h5 h6 h7 h8 h9 h10,
    List.length_filterMap_le _ _, ?_, ?_⟩
  · intro r
    unfold mkSample narrowRow wideOfRow
    cases hts : parseTs (r.get? iTs) <;> cases hidx : parseIdx (r.get? iIdx) <;>
      simp
  · intro r s h
    unfold mkSample narrowRow wideOfRow at h
    cases hts : parseTs (r.get? iTs) with
    | none => rw [hts] at h; simp at h
    | some t =>
      cases hidx : parseIdx (r.get? iIdx) with
      | none => rw [hts, hidx] at h; simp at h
      | some g =>
        rw [hts, hidx] at h
        simp only [Option.some.injEq] at h
        subst h
        exact ⟨rfl, rfl, rfl, rfl, rfl, rfl, rfl, rfl, rfl, rfl⟩

/-- Witness for C4 at a concrete CSV: one kept row with an uncoercible
measurement, one row dropped for a bad timestamp. -/
theorem load_normalization_rows_witness :
    loadMetricsRows parseTsModel parseIdxModel "gpu_train_20240102_030405.csv"
      csvHeadersU
      [["20240102", "0", "garbage!", "N/A", "N/A", "N/A", "N/A", "N/A", "N/A", "N/A"],
       naRow "bad-ts" "0"] =
      Except.ok
        ([["20240102", "0", "garbage!", "N/A", "N/A", "N/A", "N/A", "N/A", "N/A", "N/A"],
          naRow "bad-ts" "0"].filterMap
          (mkSample parseTsModel parseIdxModel 0 1 2 3 4 5 6 7 8 9)) ∧
    ([["20240102", "0", "garbage!", "N/A", "N/A", "N/A", "N/A", "N/A", "N/A", "N/A"],
      naRow "bad-ts" "0"].filterMap
      (mkSample parseTsModel parseIdxModel 0 1 2 3 4 5 6 7 8 9)).length ≤
      [["20240102", "0", "garbage!", "N/A", "N/A", "N/A", "N/A", "N/A", "N/A", "N/A"],
       naRow "bad-ts" "0"].length :=
  let h := load_normalization_rows parseTsModel parseIdxModel
    "gpu_train_20240102_030405.csv" csvHeadersU
    [["20240102", "0", "garbage!", "N/A", "N/A", "N/A", "N/A", "N/A", "N/A", "N/A"],
     naRow "bad-ts" "0"] 0 1 2 3 4 5 6 7 8 9
    rfl rfl rfl rfl rfl rfl rfl rfl rfl rfl
  ⟨h.1, h.2.1⟩

/-! ## The per-file invariant claim (C9) -/

/-- Counterexample to claim C9 as stated: a CSV that normalizes successfully
yet contains a negative GPU index and, for GPU 0, strictly decreasing
timestamps — the code never enforces the claimed invariant. -/
theorem load_invariant_counterexample :
    loadMetricsRows parseTsModel parseIdxModel "gpu_train_20240102_030405.csv"
      csvHeadersU
      [naRow "20240105" "0", naRow "20240103" "0", naRow "20240102" "-1"] =
      Except.ok
        [⟨20240105, 0, none, none, none, none, none, none, none, none⟩,
         ⟨20240103, 0, none, none, none, none, none, none, none, none⟩,
         ⟨20240102, -1, none, none, none, none, none, none, none, none⟩] ∧
    ((-1 : Int) < 0 ∧ (20240103 : Nat) < 20240105) :=
  ⟨rfl, by decide⟩

/-- Claim C9 (amended) — normalization preserves row order and the parsed
timestamp/index values, so *when the parseable input rows all carry
non-negative GPU indices and appear in per-GPU non-decreasing timestamp
order*, the normalized row set satisfies the invariant; the code itself does
not enforce it. -/
theorem load_invariant_amended {τ : Type} [LE τ]
    (parseTs : Option String → Option τ) (parseIdx : Option String → Option Int)
    (path : String) (headers : List String) (rows : List (List String))
    (iTs iIdx iGu iMu iPw iSc iMc iTc iMU iMT : Nat)
    (h1 : findColIdx "timestamp" (headers.map pyStrip) = some iTs)
    (h2 : findColIdx "index" (headers.map pyStrip) = some iIdx)
    (h3 : findColIdx "utilization.gpu" (headers.map pyStrip) = some iGu)
    (h4 : findColIdx "utilization.memory" (headers.map pyStrip) = some iMu)
    (h5 : findColIdx "power.draw" (headers.map pyStrip) = some iPw)
    (h6 : findColIdx "clocks.current.sm" (headers.map pyStrip) = some iSc)
    (h7 : findColIdx "clocks.current.memory" (headers.map pyStrip) = some iMc)
    (h8 : findColIdx "temperature.gpu" (headers.map pyStrip) = some iTc)
    (h9 : findColIdx "memory.used" (headers.map pyStrip) = some iMU)
    (h10 : findColIdx "memory.total" (headers.map pyStrip) = some iMT)
    (hidx : ∀ r ∈ rows, ∀ s,
      mkSample parseTs parseIdx iTs iIdx iGu iMu iPw iSc iMc iTc iMU iMT r =
        some s → 0 ≤ s.gpuIndex)
    (hmono : rows.Pairwise (fun r1 r2 => ∀ s1 s2,
      mkSample parseTs parseIdx iTs iIdx iGu iMu iPw iSc iMc iTc iMU iMT r1 =
        some s1 →
      mkSample parseTs parseIdx iTs iIdx iGu iMu iPw iSc iMc iTc iMU iMT r2 =
        some s2 →
      s1.gpuIndex = s2.gpuIndex → s1.ts ≤ s2.ts)) :
    ∀ out, loadMetricsRows parseTs parseIdx path headers rows = Except.ok out →
      (∀ s ∈ out, 0 ≤ s.gpuIndex) ∧ perGpuMonotone out := by
  intro out hout
  rw [loadMetricsRows_eq parseTs parseIdx path headers rows
    iTs iIdx iGu iMu iPw iSc iMc iTc iMU iMT h1 h2 h3 h4 h5 h6 h7 h8 h9 h10]
    at hout
  have hout2 : out = rows.filterMap
      (mkSample parseTs parseIdx iTs iIdx iGu iMu iPw iSc iMc iTc iMU iMT) :=
    (Except.ok.inj hout).symm
  subst hout2
  constructor
  · intro s hs
    rcases List.mem_filterMap.mp hs with ⟨r, hr, hmk⟩
    exact hidx r hr s hmk
  · unfold perGpuMonotone
    rw [List.pairwise_filterMap]
    refine hmono.imp ?_
    intro r1 r2 h12 s1 hs1 s2 hs2
    exact h12 s1 s2 hs1 hs2

/-- Witness for the amended C9 at a well-behaved two-row CSV. -/
theorem load_invariant_amended_witness :
    (∀ s ∈ ([naRow "20240101" "0", naRow "20240102" "0"].filterMap
        (mkSample parseTsModel parseIdxModel 0 1 2 3 4 5 6 7 8 9)),
      0 ≤ s.gpuIndex) ∧
    perGpuMonotone
      ([naRow "20240101" "0", naRow "20240102" "0"].filterMap
        (mkSample parseTsModel parseIdxModel 0 1 2 3 4 5 6 7 8 9)) := by
  have hmk1 : mkSample parseTsModel parseIdxModel 0 1 2 3 4 5 6 7 8 9
      (naRow "20240101" "0") =
      some ⟨20240101, 0, none, none, none, none, none, none, none, none⟩ := rfl
  have hmk2 : mkSample parseTsModel parseIdxModel 0 1 2 3 4 5 6 7 8 9
      (naRow "20240102" "0") =
      some ⟨20240102, 0, none, none, none, none, none, none, none, none⟩ := rfl
  refine load_invariant_amended parseTsModel parseIdxModel
    "gpu_train_20240102_030405.csv" csvHeadersU
    [naRow "20240101" "0", naRow "20240102" "0"]
    0 1 2 3 4 5 6 7 8 9 rfl rfl rfl rfl rfl rfl rfl rfl rfl rfl ?_ ?_
    ([naRow "20240101" "0", naRow "20240102" "0"].filterMap
      (mkSample parseTsModel parseIdxModel 0 1 2 3 4 5 6 7 8 9)) rfl
  · intro r hr s hmk
    rcases List.mem_cons.mp hr with rfl | hr2
    · rw [hmk1] at hmk
      cases hmk
      decide
    rcases List.mem_cons.mp hr2 with rfl | hr3
    · rw [hmk2] at hmk
      cases hmk
      decide
    · simp at hr3
  · refine List.Pairwise.cons ?_ (List.pairwise_singleton _ _)
    intro r' hr' s1 s2 hs1 hs2 hg
    rcases List.mem_cons.mp hr' with rfl | hr2
    · rw [hmk1] at hs1
      rw [hmk2] at hs2
      cases hs1
      cases hs2
      decide
    · simp at hr2

/-! ## Report generation gating (claim C8) -/

theorem processAll_ok {τ : Type} (pt : Option String → Option τ)
    (pi : Option String → Option Int)
    (readCsv : String → List String × List (List String)) :
    ∀ (fs : List MFile) (rs : List (FileReport τ)),
      processAll pt pi readCsv fs = Except.ok rs →
      ∀ f ∈ fs, ∃ r, processFile pt pi readCsv f = Except.ok r := by
  intro fs
  induction fs with
  | nil => intro rs _ f hf; simp at hf
  | cons f0 rest ih =>
    intro rs hok f hf
    unfold processAll at hok
    cases hp : processFile pt pi readCsv f0 with
    | error e => rw [hp] at hok; simp at hok
    | ok r0 =>
      rw [hp] at hok
      cases hrest : processAll pt pi readCsv rest with
      | error e => rw [hrest] at hok; simp at hok
      | ok rs' =>
        rcases List.mem_cons.mp hf with rfl | hf2
        · exact ⟨r0, hp⟩
        · exact ih rs' hrest f hf2

/-- Claim C8 — when discovery finds no matching telemetry files, report
generation fails with the descriptive no-files error and no output value is
produced; and an output is produced only when every discovered file was
processed successfully. -/
theorem report_requires_files {τ : Type} (pt : Option String → Option τ)
    (pi : Option String → Option Int) (metricsDir outPath : String)
    (dirEntries : Option (List String))
    (readCsv : String → List String × List (List String))
    (readMeta : String → Option String) :
    (discoverMetricsFiles dirEntries = Except.ok [] →
      generateHtmlReport pt pi metricsDir outPath dirEntries readCsv readMeta =
        Except.error (ReportError.noFiles metricsDir)) ∧
    (∀ w, generateHtmlReport pt pi metricsDir outPath dirEntries readCsv
        readMeta = Except.ok w →
      ∃ files, discoverMetricsFiles dirEntries = Except.ok files ∧
        files ≠ [] ∧
        ∀ f ∈ files, ∃ r, processFile pt pi readCsv f = Except.ok r) := by
  constructor
  · intro hd
    unfold generateHtmlReport
    rw [hd]
    rfl
  · intro w hw
    unfold generateHtmlReport at hw
    split at hw
    · exact absurd hw (by simp)
    · rename_i files hdd
      split at hw
      · exact absurd hw (by simp)
      · rename_i hne
        split at hw
        · exact absurd hw (by simp)
        · rename_i reports hp
          refine ⟨files, hdd, by simpa using hne, ?_⟩
          exact processAll_ok pt pi readCsv files reports hp

/-- Witness for C8: a nonexistent metrics directory yields the no-files
error and no written report. -/
theorem report_requires_files_witness :
    generateHtmlReport (τ := Nat) parseTsModel parseIdxModel "mdir" "out.html"
      none (fun _ => ([], [])) (fun _ => none) =
      Except.error (ReportError.noFiles "mdir") :=
  (report_requires_files parseTsModel parseIdxModel "mdir" "out.html" none
    (fun _ => ([], [])) (fun _ => none)).1 rfl

end MetricsReport
